import Mathlib

set_option maxRecDepth 100000
/-!
Verification development for the `llm_deep_recall` conversational-agent
repository (`src/ai_agent.py`, `src/basic_agent.py`, `src/tools.py`).

The Python control loop, parser, dispatcher and history maintenance are
embedded as executable Lean functions operating on `List Char` / `String`.
The inference endpoint is modelled as an arbitrary deterministic function
from the current message window to a completion text (this also covers the
transport-error path of `_get_agent_response`, which returns an error text).
Python's `eval` over the argument text is modelled by a literal-value parser
(`evalArgs`) covering the integer and quoted-string literal argument lists
the registered tools receive; Python's `str.strip`, `str.split`, `str.lower`,
`\w`, and `\s` are modelled over the character classes occurring in this
repository's texts (ASCII plus the Spanish accented letters used in it).
-/

namespace AgentModel

/-- Whitespace class of Python's `str.strip()` / regex `\s` (ASCII part). -/
def pyIsSpace (c : Char) : Bool :=
  c == ' ' || c == '\t' || c == '\n' || c == '\r' || c == '\x0b' || c == '\x0c'

/-- Word character class of Python's regex `\w` (ASCII part: letters, digits, underscore). -/
def wordChar (c : Char) : Bool := c.isAlphanum || c == '_'

/-- Python `str.strip()` on a character list. -/
def pyStrip (cs : List Char) : List Char :=
  ((cs.dropWhile pyIsSpace).reverse.dropWhile pyIsSpace).reverse

/-- Python `str.strip()` on a `String`. -/
def trimS (s : String) : String := String.mk (pyStrip s.toList)

/-- Exact prefix test on character lists. -/
def startsWithExact : List Char → List Char → Bool
  | [], _ => true
  | _ :: _, [] => false
  | p :: ps, c :: cs => p == c && startsWithExact ps cs

/-- Substring containment on character lists (Python's `in` on strings). -/
def containsSub (pat : List Char) : List Char → Bool
  | [] => pat.isEmpty
  | c :: cs => startsWithExact pat (c :: cs) || containsSub pat cs

/-- Python `str.lower()` on the characters appearing in this repository's
texts: ASCII letters plus the Spanish uppercase accented letters. -/
def pyLowerChar (c : Char) : Char :=
  if c == 'Á' then 'á' else if c == 'É' then 'é' else if c == 'Í' then 'í'
  else if c == 'Ó' then 'ó' else if c == 'Ú' then 'ú' else if c == 'Ñ' then 'ñ'
  else c.toLower

/-- Python `str.lower()` on a `String`. -/
def pyLower (s : String) : String := String.mk (s.toList.map pyLowerChar)

/-- Split a character list on a separator character (Python `str.split(sep)`,
keeping empty pieces).  Never returns the empty list. -/
def splitOnChar (sep : Char) : List Char → List (List Char)
  | [] => [[]]
  | c :: cs =>
    if c == sep then [] :: splitOnChar sep cs
    else
      match splitOnChar sep cs with
      | [] => [[c]]
      | l :: ls => (c :: l) :: ls

/-- Digit-string value (all characters assumed decimal digits). -/
def digitsVal (cs : List Char) : Nat :=
  cs.foldl (fun acc c => acc * 10 + (c.toNat - '0'.toNat)) 0

/-- Parse an optionally negated decimal integer literal. -/
def parseIntChars (cs : List Char) : Option Int :=
  match cs with
  | '-' :: ds =>
    if !ds.isEmpty && ds.all Char.isDigit then some (-(digitsVal ds : Int)) else none
  | ds =>
    if !ds.isEmpty && ds.all Char.isDigit then some ((digitsVal ds : Int)) else none

/-- Python duplicate removal with a `seen` set, preserving first-seen order
(the final step of `_extract_function_calls`, `ai_agent.py` lines 319-325,
and the key order of the `dict` comprehension building `tools_registry`). -/
def dedupFirstGo (seen : List String) : List String → List String
  | [] => []
  | x :: xs =>
    if seen.contains x then dedupFirstGo seen xs
    else x :: dedupFirstGo (x :: seen) xs

/-- Duplicate removal preserving first occurrences. -/
def dedupFirst (l : List String) : List String := dedupFirstGo [] l

/-- Values produced by the modelled tools.  Python floats are carried as an
unreduced integer fraction as produced by `/`; every float reaching `pyStr`
in this development is integral, which is the only case whose Python `str()`
rendering is modelled. -/
inductive PyVal where
  | int (n : Int)
  | float (num : Int) (den : Nat)
  | str (s : String)
deriving Repr, DecidableEq

/-- Python `str()` of a tool result (`ai_agent.py` line 250). -/
def pyStr : PyVal → String
  | .int n => toString n
  | .float num den =>
    if den ≠ 0 ∧ num % (den : Int) = 0 then toString (num / (den : Int)) ++ ".0"
    else "<float>"
  | .str s => s

/-- A registered callable: receives the evaluated argument list and either
returns a value or raises (modelled as `Except.error` carrying `str(e)`). -/
def ToolFn := List PyVal → Except String PyVal

/-- The agent's `tools_registry`: name/callable pairs in registration order. -/
def Registry := List (String × ToolFn)

/-- `list(self.tools_registry.keys())`: insertion order, duplicates collapsed
to their first occurrence (Python `dict` comprehension semantics). -/
def registryKeys (reg : Registry) : List String :=
  dedupFirst (reg.map (fun p => p.1))

/-- `self.tools_registry[name]`: for duplicate names the last registration
wins (Python `dict` comprehension semantics). -/
def lookupTool (reg : Registry) (n : String) : Option ToolFn :=
  reg.foldl (fun acc p => if p.1 == n then some p.2 else acc) none

/-- Python `str()` of a list of strings, as interpolated into the
unknown-function error message (`ai_agent.py` line 222). -/
def pyReprStrList (xs : List String) : String :=
  "[" ++ String.intercalate ", " (xs.map (fun s => "'" ++ s ++ "'")) ++ "]"

/-- `tools.py` line 128-148: `dividir(a, b)`, raising
`ValueError("No se puede dividir entre cero.")` on a zero divisor and
returning the float `a / b` otherwise.  Modelled on integer arguments (the
ones the claims exercise); other argument shapes raise a `TypeError` whose
exact Python message text is not modelled. -/
def dividir : ToolFn := fun args =>
  match args with
  | [.int a, .int b] =>
    if b == 0 then .error "No se puede dividir entre cero."
    else .ok (.float (if b < 0 then -a else a) b.natAbs)
  | _ => .error "TypeError: argumentos no soportados"

/-- `tools.py` line 74-89: `sumar(a, b) = a + b`, modelled on integers. -/
def sumar : ToolFn := fun args =>
  match args with
  | [.int a, .int b] => .ok (.int (a + b))
  | _ => .error "TypeError: argumentos no soportados"

/-- The built-in `reply` callable (`ai_agent.py` lines 146-157): returns its
message argument.  The dispatcher intercepts `reply` before ever invoking it. -/
def replyTool : ToolFn := fun args =>
  match args with
  | [v] => .ok v
  | _ => .error "TypeError: argumentos no soportados"

/-- Registry of an `AIAgent(tools=[sumar, dividir])`: the caller tools in
order followed by the automatically injected `reply` function. -/
def demoRegistry : Registry :=
  [("sumar", sumar), ("dividir", dividir), ("reply", replyTool)]

/-- Model of `eval(f"func({args_str})")` argument evaluation
(`ai_agent.py` line 246) and `eval(f"[{raw_args}]")` (`basic_agent.py` line
51), restricted to comma-separated integer and quoted-string literals; any
other argument text is an evaluation error (Python `SyntaxError` etc.). -/
def parseLit (cs : List Char) : Except String PyVal :=
  let t := pyStrip cs
  match parseIntChars t with
  | some n => .ok (.int n)
  | none =>
    if t.length ≥ 2 && t.headD ' ' == '\'' && t.getLast? == some '\'' then
      .ok (.str (String.mk (t.drop 1).dropLast))
    else if t.length ≥ 2 && t.headD ' ' == '"' && t.getLast? == some '"' then
      .ok (.str (String.mk (t.drop 1).dropLast))
    else .error "invalid syntax (<string>, line 1)"

/-- Evaluate an argument list text to values (see `parseLit`). -/
def evalArgs (s : String) : Except String (List PyVal) :=
  if (pyStrip s.toList).isEmpty then .ok []
  else (splitOnChar ',' s.toList).mapM parseLit

/-- The regex `(\w+)\((.*)\)` of `_execute_function` (`ai_agent.py` line 212)
under `re.match`: a nonempty `\w+` prefix, an opening parenthesis, then
(`.` not matching newlines, `.*` greedy, the end unanchored) everything up to
the last `)` of the first line.  Returns `(function name, argument text)`. -/
def matchNameParenArgs (cs : List Char) : Option (String × String) :=
  let name := cs.takeWhile wordChar
  if name.isEmpty then none
  else
    match cs.drop name.length with
    | '(' :: rest =>
      let firstLine := rest.takeWhile (fun c => c != '\n')
      match (firstLine.reverse.dropWhile (fun c => c != ')')) with
      | [] => none
      | _ :: beforeLast => some (String.mk name, String.mk beforeLast.reverse)
    | _ => none

/-- Python `s[1:-1]`. -/
def pySlice1m1 (s : String) : String := String.mk ((s.toList.drop 1).dropLast)

/-- The quote stripping applied to the `reply` argument
(`ai_agent.py` lines 228-233): one layer of enclosing matching single or
double quotes is removed, otherwise the raw text is kept. -/
def stripQuotes (s : String) : String :=
  let cs := s.toList
  if cs.headD ' ' == '\'' && cs.getLast? == some '\'' then pySlice1m1 s
  else if cs.headD ' ' == '"' && cs.getLast? == some '"' then pySlice1m1 s
  else s

/-- Outcome of `_execute_function`: whether the terminal `reply` fired, the
final answer it stored, the returned observation text, and the names of the
registered callables whose bodies were actually invoked (the side-effect
trace; empty for `reply`, which the dispatcher never actually calls). -/
structure ExecResult where
  replyFired : Bool
  answer : String
  output : String
  called : List String
deriving Repr, DecidableEq

/-- `_execute_function` (`ai_agent.py` lines 197-253). -/
def execFunction (reg : Registry) (call : String) : ExecResult :=
  let s := trimS call
  match matchNameParenArgs s.toList with
  | none =>
    ⟨false, "", "Error: Formato de función inválido: " ++ s ++
      ". Usa el formato: nombre_funcion(argumentos)", []⟩
  | some (name, args) =>
    if !(registryKeys reg).contains name then
      ⟨false, "", "Error: Función '" ++ name ++ "' no encontrada. Herramientas disponibles: " ++
        pyReprStrList (registryKeys reg), []⟩
    else if name == "reply" then
      ⟨true, stripQuotes args, "✓ Respuesta enviada al usuario", []⟩
    else
      match lookupTool reg name with
      | none => ⟨false, "", "", []⟩
      | some f =>
        if (pyStrip args.toList).isEmpty then
          match f [] with
          | .ok v => ⟨false, "", pyStr v, [name]⟩
          | .error e => ⟨false, "", "Error procesando función: " ++ e, [name]⟩
        else
          match evalArgs args with
          | .error e =>
            ⟨false, "", "Error en argumentos de " ++ name ++ ": " ++ e ++
              ". Verifica la sintaxis.", []⟩
          | .ok vs =>
            match f vs with
            | .ok v => ⟨false, "", pyStr v, [name]⟩
            | .error e =>
              ⟨false, "", "Error en argumentos de " ++ name ++ ": " ++ e ++
                ". Verifica la sintaxis.", [name]⟩

/-- The line test `re.match(r'\w+\(.*\)', line)` of extraction methods 1 and 3
(`ai_agent.py` lines 277 and 314): a nonempty `\w+` prefix, `(`, and a later
`)` on the line (`re.match` leaves the end unanchored). -/
def lineLooksLikeCall (cs : List Char) : Bool :=
  let name := cs.takeWhile wordChar
  !name.isEmpty &&
    (match cs.drop name.length with
     | '(' :: rest => rest.contains ')'
     | _ => false)

/-- Case-insensitive prefix test (pattern given in lowercase). -/
def startsWithCI : List Char → List Char → Bool
  | [], _ => true
  | _ :: _, [] => false
  | p :: ps, c :: cs => p == c.toLower && startsWithCI ps cs

/-- The opening fence of extraction method 1's pattern
`` ```python`` (case-insensitive). -/
def pythonOpenPat : List Char := ['`', '`', '`', 'p', 'y', 't', 'h', 'o', 'n']

/-- Find the first `` ```python`` fence; returns the remaining text after it. -/
def findOpen : List Char → Option (List Char)
  | [] => none
  | c :: cs =>
    if startsWithCI pythonOpenPat (c :: cs) then some ((c :: cs).drop 9)
    else findOpen cs

/-- Find the first closing `` ``` `` fence; returns the content before it and
the remaining text after it. -/
def findClose : List Char → Option (List Char × List Char)
  | [] => none
  | c :: cs =>
    if startsWithExact ['`', '`', '`'] (c :: cs) then some ([], (c :: cs).drop 3)
    else
      match findClose cs with
      | some (pre, suf) => some (c :: pre, suf)
      | none => none

/-- The non-overlapping fenced regions matched by
`re.findall(r'```python\s*\n?(.*?)\n?```', text, re.DOTALL | re.IGNORECASE)`
(`ai_agent.py` lines 269-270): lazy matching makes each region run to the
next `` ``` ``; the edge `\s*\n?`/`\n?` whitespace absorption is immaterial
because the content is stripped and split into stripped lines afterwards.
The fuel argument exceeds the text length, so it never runs out. -/
def pythonBlocks : Nat → List Char → List (List Char)
  | 0, _ => []
  | fuel + 1, cs =>
    match findOpen cs with
    | none => []
    | some rest =>
      match findClose rest with
      | none => []
      | some (content, suffix) => content :: pythonBlocks fuel suffix

/-- Extraction method 1 (`ai_agent.py` lines 268-278): stripped lines of the
fenced python blocks that look like calls (any identifier, registered or not). -/
def fencedBlockCalls (text : List Char) : List String :=
  (pythonBlocks (text.length + 1) text).flatMap (fun block =>
    (((splitOnChar '\n' (pyStrip block)).map pyStrip).filter lineLooksLikeCall).map String.mk)

/-- Balanced-parenthesis forward scan (`ai_agent.py` lines 293-307), starting
at an opening parenthesis: returns the consumed characters up to and
including the parenthesis restoring balance, or `none` if the text ends
first (in which case nothing is recorded). -/
def scanBalanced : List Char → Nat → Option (List Char)
  | [], _ => none
  | c :: cs, depth =>
    if c == '(' then (scanBalanced cs (depth + 1)).map (fun l => c :: l)
    else if c == ')' then
      if depth == 1 then some [c]
      else (scanBalanced cs (depth - 1)).map (fun l => c :: l)
    else (scanBalanced cs depth).map (fun l => c :: l)

/-- Extraction method 2 for one registered name (`ai_agent.py` lines
283-307): scan for non-overlapping `\b name \s* \(` regex matches
(continuing after each match's opening parenthesis, as `re.finditer` does)
and record the balanced-parenthesis region from each match's start.
`prevWord` tracks whether the previous character is a word character (for
`\b`; tool names start with a word character).  The fuel argument exceeds
the text length, so it never runs out. -/
def inlineCallsGo (name : List Char) : Nat → Bool → List Char → List String
  | 0, _, _ => []
  | _, _, [] => []
  | fuel + 1, prevWord, c :: rest =>
    let here := c :: rest
    if !prevWord && startsWithExact name here &&
        ((here.drop name.length).dropWhile pyIsSpace).headD ' ' == '(' then
      let afterName := here.drop name.length
      let ws := afterName.takeWhile pyIsSpace
      let fromParen := afterName.dropWhile pyIsSpace
      (match scanBalanced fromParen 0 with
       | some body => [String.mk (name ++ ws ++ body)]
       | none => []) ++ inlineCallsGo name fuel false (fromParen.drop 1)
    else
      inlineCallsGo name fuel (wordChar c) rest

/-- Extraction method 2 over all registered names, in registry key order. -/
def inlineCalls (keys : List String) (text : List Char) : List String :=
  keys.flatMap (fun k => inlineCallsGo k.toList (text.length + 1) false text)

/-- Extraction method 3 (`ai_agent.py` lines 309-317): stripped full lines
that look like calls and whose identifier is a registered tool name. -/
def bareLineCalls (keys : List String) (text : List Char) : List String :=
  ((splitOnChar '\n' text).map pyStrip).filterMap (fun line =>
    if lineLooksLikeCall line &&
        keys.contains (String.mk (line.takeWhile (fun c => c != '('))) then
      some (String.mk line)
    else none)

/-- `_extract_function_calls` (`ai_agent.py` lines 255-331): the three
detection methods in order, de-duplicated preserving first occurrence. -/
def extractFunctionCalls (reg : Registry) (text : String) : List String :=
  let keys := registryKeys reg
  let cs := text.toList
  dedupFirst (fencedBlockCalls cs ++ inlineCalls keys cs ++ bareLineCalls keys cs)

/-- A conversation message (`{"role": ..., "content": ...}`). -/
structure Msg where
  role : String
  content : String
deriving Repr, DecidableEq

/-- The confirmation text returned when `reply` fires (`ai_agent.py` line 234). -/
def replyConfirmationText : String := "✓ Respuesta enviada al usuario"

/-- The fixed abandonment text set when the iteration bound is reached
without `reply` (`ai_agent.py` line 495). -/
def abandonmentText : String :=
  "Lo siento, se alcanzó el límite máximo de procesamiento. Por favor, reformula tu consulta."

/-- The escalated corrective instruction injected after 2 consecutive rounds
without function calls (`ai_agent.py` lines 457-462, exact literal including
the source's embedded indentation). -/
def escalatedReplyDemand : String :=
  "🚨 CRÍTICO: DEBES usar la función reply() AHORA. \n                        \n                        No puedes continuar sin usar reply(). El sistema requiere que uses:\n                        reply('tu respuesta completa en español aquí')\n                        \n                        Esto es OBLIGATORIO para terminar la conversación correctamente."

/-- The corrective instruction injected when a call-free completion looks
like a final answer (`ai_agent.py` lines 479-483, exact literal including
the source's embedded indentation). -/
def finalAnswerReplyDemand : String :=
  "Parece que tienes una respuesta lista. DEBES usar la función reply() para enviarla:\n                        \n                        reply('tu respuesta completa aquí')\n                        \n                        Es OBLIGATORIO usar reply() para terminar la conversación."

/-- The encouragement injected for other call-free completions
(`ai_agent.py` line 490). -/
def continueAnalysisDemand : String :=
  "Continúa con tu análisis y usa las herramientas apropiadas, o si ya tienes la respuesta, usa reply() para enviarla."

/-- The fixed final-answer marker phrases (`ai_agent.py` lines 468-472). -/
def finalAnswerIndicators : List String :=
  ["respuesta:", "en resumen", "por lo tanto", "finalmente",
   "en conclusión", "para concluir", "respondiendo a tu pregunta",
   "la respuesta es", "puedo decirte que", "según"]

/-- `any(phrase in agent_response.lower() for phrase in final_answer_indicators)`
(`ai_agent.py` line 474). -/
def hasFinalAnswerMarker (resp : String) : Bool :=
  finalAnswerIndicators.any (fun p => containsSub p.toList (pyLower resp).toList)

/-- Result of dispatching one round's extracted calls in order
(`ai_agent.py` lines 427-436): whether `reply` fired, the answer it stored,
and the trace of callables actually invoked before stopping. -/
structure RoundExec where
  fired : Bool
  answer : String
  trace : List String
deriving Repr, DecidableEq

/-- The per-round execution loop: dispatch each call, stopping right after
the call that fires `reply` (short-circuit, `ai_agent.py` line 435). -/
def runCalls (reg : Registry) : List String → RoundExec
  | [] => ⟨false, "", []⟩
  | c :: cs =>
    let r := execFunction reg c
    if r.replyFired then ⟨true, r.answer, r.called⟩
    else
      let rest := runCalls reg cs
      ⟨rest.fired, rest.answer, r.called ++ rest.trace⟩

/-- A single dispatch pass over a call list (used once by the execution loop
and once more while building the observation message). -/
def dispatchTrace (reg : Registry) (calls : List String) : List String :=
  calls.flatMap (fun c => (execFunction reg c).called)

/-- The synthesized observation message (`ai_agent.py` lines 442-445), whose
construction re-executes every call of the round. -/
def observationMessage (reg : Registry) (calls : List String) : String :=
  "Resultados de la ejecución de funciones:\n" ++
    String.intercalate "\n"
      (calls.map (fun c => "- " ++ c ++ ": " ++ (execFunction reg c).output))

/-- Per-turn loop state of `send_message`: the working message window
`current_messages`, the `consecutive_no_reply` counter, the `_reply_called`
flag, `_final_response`, the number of completion requests issued so far,
and the cumulative trace of callables invoked. -/
structure LoopState where
  msgs : List Msg
  consecutiveNoReply : Nat
  replyCalled : Bool
  finalResponse : String
  requests : Nat
  trace : List String
deriving Repr, DecidableEq

/-- One iteration of the `send_message` loop body (`ai_agent.py` lines
411-491), applied to the completion `resp` obtained for the current window:
extract calls; if any, dispatch them (short-circuiting on `reply`) and, when
`reply` did not fire, append the assistant turn plus the observation message
(re-executing every call); with no calls, run the forced-termination
branches (escalation at 2 consecutive rounds, final-answer heuristic,
encouragement). -/
def loopStep (reg : Registry) (resp : String) (st : LoopState) : LoopState :=
  let calls := extractFunctionCalls reg resp
  if calls.isEmpty then
    if st.consecutiveNoReply + 1 ≥ 2 then
      { st with requests := st.requests + 1,
                msgs := st.msgs ++ [⟨"assistant", resp⟩, ⟨"user", escalatedReplyDemand⟩],
                consecutiveNoReply := 0 }
    else if hasFinalAnswerMarker resp then
      { st with requests := st.requests + 1,
                msgs := st.msgs ++ [⟨"assistant", resp⟩, ⟨"user", finalAnswerReplyDemand⟩],
                consecutiveNoReply := st.consecutiveNoReply + 1 }
    else
      { st with requests := st.requests + 1,
                msgs := st.msgs ++ [⟨"assistant", resp⟩, ⟨"user", continueAnalysisDemand⟩],
                consecutiveNoReply := st.consecutiveNoReply + 1 }
  else
    let r := runCalls reg calls
    if r.fired then
      { st with requests := st.requests + 1, consecutiveNoReply := 0,
                replyCalled := true, finalResponse := r.answer,
                trace := st.trace ++ r.trace }
    else
      { st with requests := st.requests + 1, consecutiveNoReply := 0,
                trace := st.trace ++ r.trace ++ dispatchTrace reg calls,
                msgs := st.msgs ++ [⟨"assistant", resp⟩,
                                    ⟨"user", observationMessage reg calls⟩] }

/-- The `while not self._reply_called and iteration < self.max_iterations`
loop (`ai_agent.py` line 411), with the remaining iteration budget as fuel;
each iteration requests one completion over the current window. -/
def loopGo (reg : Registry) (llm : List Msg → String) : Nat → LoopState → LoopState
  | 0, st => st
  | fuel + 1, st =>
    if st.replyCalled then st
    else loopGo reg llm fuel (loopStep reg (llm st.msgs) st)

/-- `_maintain_history_limit` (`ai_agent.py` lines 382-388): when the history
exceeds `2*K + 1` messages, keep the first message plus
`self.history[-(2*K):]` — which, by Python slice semantics, is the *whole*
history when `K = 0` (`[-0:] == [0:]`). -/
def maintainHistoryLimit (k : Nat) (h : List Msg) : List Msg :=
  if h.length > 2 * k + 1 then
    h.take 1 ++ (if 2 * k == 0 then h else h.drop (h.length - 2 * k))
  else h

/-- Result of a `send_message` turn: the returned response, the updated
persistent history, the number of completion requests issued, and the trace
of callables invoked during the turn. -/
structure TurnResult where
  response : String
  history : List Msg
  requests : Nat
  trace : List String
deriving Repr, DecidableEq

/-- `send_message` (`ai_agent.py` lines 392-507): reset the reply state,
append the user message to the persistent history, iterate on a copy of it
(the working window) up to `maxIterations` rounds, fall back to the fixed
abandonment text when `reply` never fired, append the final answer as a
single assistant message to the persistent history (the working window's
intermediate turns are discarded), and apply the retention trim. -/
def sendMessage (reg : Registry) (historyLimit maxIterations : Nat)
    (llm : List Msg → String) (history : List Msg) (message : String) : TurnResult :=
  let history1 := history ++ [⟨"user", message⟩]
  let st := loopGo reg llm maxIterations ⟨history1, 0, false, "", 0, []⟩
  let final := if st.replyCalled then st.finalResponse else abandonmentText
  ⟨final, maintainHistoryLimit historyLimit (history1 ++ [⟨"assistant", final⟩]),
   st.requests, st.trace⟩

/-- A tool as seen by documentation generation: `__name__` and `__doc__`
(`None` or a possibly empty docstring). -/
structure ToolDecl where
  name : String
  doc : Option String
deriving Repr, DecidableEq

/-- Python `str.split()` with no argument: maximal runs of non-whitespace
characters.  The fuel argument exceeds the list length, so it never runs out. -/
def pyWordsGo : Nat → List Char → List (List Char)
  | 0, _ => []
  | _, [] => []
  | fuel + 1, c :: cs =>
    if pyIsSpace c then pyWordsGo fuel cs
    else
      ((c :: cs).takeWhile (fun x => !pyIsSpace x)) ::
        pyWordsGo fuel ((c :: cs).dropWhile (fun x => !pyIsSpace x))

/-- Python `str.split()` on a character list. -/
def pyWords (cs : List Char) : List (List Char) := pyWordsGo (cs.length + 1) cs

/-- `' '.join(words)`. -/
def joinWordsSpace : List (List Char) → List Char
  | [] => []
  | [w] => w
  | w :: ws => w ++ ' ' :: joinWordsSpace ws

/-- Docstring normalization of `_generate_tools_documentation` (`ai_agent.py`
lines 179-186): a missing or empty (falsy) docstring becomes the fixed
fallback, otherwise whitespace runs collapse to single spaces. -/
def normalizeDocstring : Option String → List Char
  | none => "Sin descripción disponible".toList
  | some d =>
    if d == "" then "Sin descripción disponible".toList
    else joinWordsSpace (pyWords d.toList)

/-- The three documentation lines appended per tool (`ai_agent.py` lines
189-191). -/
def toolEntryLines (t : ToolDecl) : List (List Char) :=
  [('\n' :: '•' :: ' ' :: t.name.toList) ++ [':'],
   "  Description: ".toList ++ normalizeDocstring t.doc,
   "  Usage: ".toList ++ t.name.toList ++ "(arguments)".toList]

/-- All documentation lines (`ai_agent.py` lines 171-193): header, `"=" * 40`,
one entry per tool in list order, footer. -/
def documentationLines (tools : List ToolDecl) : List (List Char) :=
  ["\nHERRAMIENTAS DISPONIBLES:".toList, List.replicate 40 '=']
    ++ tools.flatMap toolEntryLines
    ++ ["\nREMEMBER: Only YOU can execute these tools by calling them directly by name.".toList]

/-- `'\n'.join(lines)`. -/
def joinLines : List (List Char) → List Char
  | [] => []
  | [l] => l
  | l :: ls => l ++ '\n' :: joinLines ls

/-- `_generate_tools_documentation` (`ai_agent.py` lines 161-195): empty text
for an empty tool list, else the joined documentation lines. -/
def generateToolsDocumentation (tools : List ToolDecl) : String :=
  if tools.isEmpty then "" else String.mk (joinLines (documentationLines tools))

/-- The built-in `reply` function's name and docstring (`ai_agent.py` lines
146-156). -/
def replyToolDecl : ToolDecl :=
  ⟨"reply",
   some "\n            Función OBLIGATORIA para enviar la respuesta final al usuario.\n            Debes usar esta función para terminar cada conversación.\n            \n            Args:\n                message (str): Tu respuesta completa para el usuario\n            \n            Returns:\n                str: Confirmación de envío\n            "⟩

/-- `self.tools` after `__init__` ran `_add_reply_function` (`ai_agent.py`
lines 31-36, 144-159): the caller-supplied tools in order, then `reply`. -/
def agentTools (callerTools : List ToolDecl) : List ToolDecl :=
  callerTools ++ [replyToolDecl]

/-- The documentation an `AIAgent` generates for a caller-supplied tool list. -/
def agentDocumentation (callerTools : List ToolDecl) : String :=
  generateToolsDocumentation (agentTools callerTools)

/-- Observer reading the documented tool names back out of the generated
text: the content of each `• name:` bullet line. -/
def bulletOfLine (line : List Char) : Option String :=
  match line with
  | '•' :: ' ' :: rest =>
    if rest.getLast? == some ':' then some (String.mk rest.dropLast) else none
  | _ => none

/-- The documented tool names of a documentation text, in order. -/
def bulletNames (s : String) : List String :=
  (splitOnChar '\n' s.toList).filterMap bulletOfLine

/-- The `BasicAgent` regex `re.match(r"función:\s*(\w+)\((.*)\)", text.strip(),
re.IGNORECASE)` (`basic_agent.py` line 45): a case-insensitive `función:`
prefix, optional whitespace, then `name(args)` as in `matchNameParenArgs`. -/
def matchBasicCall (cs : List Char) : Option (String × String) :=
  if (startsWithExact "función:".toList (cs.map pyLowerChar)) then
    matchNameParenArgs ((cs.drop 8).dropWhile pyIsSpace)
  else none

/-- `_parse_function_call` (`basic_agent.py` lines 43-57): on a match whose
tool name is registered, evaluate `[raw_args]` and invoke the tool, returning
`str(result)` or the error text; otherwise (no match or unknown name) return
`none`.  The second component is the trace of tool invocations actually
performed. -/
def parseFunctionCallBasic (tools : Registry) (text : String) :
    Option String × List (String × List PyVal) :=
  match matchBasicCall (pyStrip text.toList) with
  | none => (none, [])
  | some (name, rawArgs) =>
    match lookupTool tools name with
    | none => (none, [])
    | some f =>
      match evalArgs rawArgs with
      | .error e => (some ("[Error al ejecutar función '" ++ name ++ "']: " ++ e), [])
      | .ok args =>
        match f args with
        | .ok v => (some (pyStr v), [(name, args)])
        | .error e =>
          (some ("[Error al ejecutar función '" ++ name ++ "']: " ++ e), [(name, args)])

/-- Python `l[-n:]` (`basic_agent.py` line 65): the last `n` elements, or the
whole list when `n = 0`. -/
def lastSlice (n : Nat) (l : List Msg) : List Msg :=
  if n == 0 then l else l.drop (l.length - n)

/-- Result of a `BasicAgent.chat` turn: the returned text, the updated
history, and the trace of tool invocations performed. -/
structure BasicTurn where
  response : String
  history : List Msg
  trace : List (String × List PyVal)
deriving Repr, DecidableEq

/-- `BasicAgent.chat` (`basic_agent.py` lines 59-89): append the user input,
send the system prompt plus the last `2 * n_interactions` history messages,
then either return the single executed invocation's result or the raw
completion, appending it as the assistant turn.  The system prompt text
(`_generate_system_prompt`) is passed in as a parameter; its content does
not influence the parsing or dispatch behaviour modelled here. -/
def basicChat (tools : Registry) (nInteractions : Nat) (systemPrompt : String)
    (llm : List Msg → String) (history : List Msg) (userInput : String) : BasicTurn :=
  let history1 := history ++ [⟨"user", userInput⟩]
  let aiReply := llm (⟨"system", systemPrompt⟩ :: lastSlice (2 * nInteractions) history1)
  match parseFunctionCallBasic tools aiReply with
  | (some r, tr) => ⟨r, history1 ++ [⟨"assistant", r⟩], tr⟩
  | (none, tr) => ⟨aiReply, history1 ++ [⟨"assistant", aiReply⟩], tr⟩

/-! ## Helper lemmas -/

theorem runCalls_not_fired (reg : Registry) (calls : List String)
    (h : ∀ c ∈ calls, (execFunction reg c).replyFired = false) :
    runCalls reg calls = ⟨false, "", dispatchTrace reg calls⟩ := by
  induction calls with
  | nil => rfl
  | cons c cs ih =>
    have hc := h c (List.mem_cons_self c cs)
    have hcs := ih (fun x hx => h x (List.mem_cons_of_mem c hx))
    simp only [runCalls, hc, if_false, hcs, dispatchTrace, List.flatMap_cons]
    simp [dispatchTrace] at hcs ⊢

theorem runCalls_fires_first (reg : Registry) (pre post : List String) (call : String)
    (hpre : ∀ c ∈ pre, (execFunction reg c).replyFired = false)
    (hfire : (execFunction reg call).replyFired = true) :
    runCalls reg (pre ++ call :: post) =
      ⟨true, (execFunction reg call).answer,
        dispatchTrace reg pre ++ (execFunction reg call).called⟩ := by
  induction pre with
  | nil => simp [runCalls, hfire, dispatchTrace]
  | cons c cs ih =>
    have hc := hpre c (List.mem_cons_self c cs)
    have ihh := ih (fun x hx => hpre x (List.mem_cons_of_mem c hx))
    simp only [List.cons_append, runCalls, hc, Bool.false_eq_true, if_false,
      List.append_eq, ihh, dispatchTrace, List.flatMap_cons, List.append_assoc]

theorem loopStep_requests (reg : Registry) (resp : String) (st : LoopState) :
    (loopStep reg resp st).requests = st.requests + 1 := by
  simp only [loopStep]
  split
  · split
    · rfl
    · split <;> rfl
  · split <;> rfl

theorem loopStep_not_fired (reg : Registry) (resp : String) (st : LoopState)
    (h : ∀ c ∈ extractFunctionCalls reg resp, (execFunction reg c).replyFired = false) :
    (loopStep reg resp st).replyCalled = st.replyCalled := by
  simp only [loopStep, runCalls_not_fired reg _ h]
  split
  · split
    · rfl
    · split <;> rfl
  · rfl

theorem loopGo_requests_le (reg : Registry) (llm : List Msg → String) (fuel : Nat)
    (st : LoopState) : (loopGo reg llm fuel st).requests ≤ st.requests + fuel := by
  induction fuel generalizing st with
  | zero => simp [loopGo]
  | succ n ih =>
    simp only [loopGo]
    split
    · omega
    · have := ih (loopStep reg (llm st.msgs) st)
      rw [loopStep_requests] at this
      omega

theorem loopGo_never_fired (reg : Registry) (llm : List Msg → String)
    (h : ∀ msgs c, c ∈ extractFunctionCalls reg (llm msgs) →
      (execFunction reg c).replyFired = false)
    (fuel : Nat) (st : LoopState) (h0 : st.replyCalled = false) :
    (loopGo reg llm fuel st).replyCalled = false ∧
      (loopGo reg llm fuel st).requests = st.requests + fuel := by
  induction fuel generalizing st with
  | zero => simpa [loopGo] using h0
  | succ n ih =>
    simp only [loopGo, h0, Bool.false_eq_true, if_false]
    have hstep : (loopStep reg (llm st.msgs) st).replyCalled = false := by
      rw [loopStep_not_fired reg _ st (h st.msgs)]; exact h0
    obtain ⟨h1, h2⟩ := ih (loopStep reg (llm st.msgs) st) hstep
    refine ⟨h1, ?_⟩
    rw [h2, loopStep_requests]
    omega

theorem loopGo_fixed (reg : Registry) (llm : List Msg → String) (fuel : Nat)
    (st : LoopState) (h : st.replyCalled = true) : loopGo reg llm fuel st = st := by
  cases fuel with
  | zero => rfl
  | succ n => simp [loopGo, h]

/-! ## Claims -/

/-- C1: `send_message` makes at most `max_iterations` completion requests and,
with a model whose completions never make the dispatcher fire the terminal
`reply` tool, returns the fixed abandonment text after exactly
`max_iterations` rounds.  (Termination itself is by construction: the loop is
a total function of the iteration budget.) -/
theorem sendMessage_request_bound_and_abandonment (reg : Registry)
    (K maxIter : Nat) (llm : List Msg → String) (history : List Msg) (message : String) :
    (sendMessage reg K maxIter llm history message).requests ≤ maxIter ∧
    ((∀ msgs c, c ∈ extractFunctionCalls reg (llm msgs) →
        (execFunction reg c).replyFired = false) →
      (sendMessage reg K maxIter llm history message).response = abandonmentText ∧
      (sendMessage reg K maxIter llm history message).requests = maxIter) := by
  constructor
  · have := loopGo_requests_le reg llm maxIter
      ⟨history ++ [⟨"user", message⟩], 0, false, "", 0, []⟩
    simpa [sendMessage] using this
  · intro h
    obtain ⟨h1, h2⟩ := loopGo_never_fired reg llm h maxIter
      ⟨history ++ [⟨"user", message⟩], 0, false, "", 0, []⟩ rfl
    constructor
    · simp [sendMessage, h1]
    · simpa [sendMessage] using h2

/-- Witness for C1 at a concrete never-replying model. -/
theorem sendMessage_request_bound_and_abandonment_witness :
    (sendMessage demoRegistry 5 3 (fun _ => "hola") [⟨"system", "s"⟩] "q").response =
      abandonmentText ∧
    (sendMessage demoRegistry 5 3 (fun _ => "hola") [⟨"system", "s"⟩] "q").requests = 3 := by
  apply (sendMessage_request_bound_and_abandonment demoRegistry 5 3
    (fun _ => "hola") [⟨"system", "s"⟩] "q").2
  intro msgs c hc
  have hempty : extractFunctionCalls demoRegistry "hola" = [] := by decide
  simp only [hempty] at hc
  cases hc

/-- C2: when the extracted invocations of the first completion contain a
`reply(...)` call (preceded only by calls that do not fire `reply`), the
dispatcher marks `reply` as fired with answer equal to the argument text
after one layer of matching-quote stripping, returns the short confirmation
string, never invokes the underlying `reply` callable, skips every
remaining invocation of that round, and `send_message` returns that final
answer. -/
theorem reply_sets_final_answer_and_short_circuits (reg : Registry)
    (K maxIter : Nat) (llm : List Msg → String) (history : List Msg)
    (message : String) (pre post : List String) (call argText : String)
    (hx : extractFunctionCalls reg (llm (history ++ [⟨"user", message⟩])) =
      pre ++ call :: post)
    (hpre : ∀ c ∈ pre, (execFunction reg c).replyFired = false)
    (hcall : matchNameParenArgs (trimS call).toList = some ("reply", argText))
    (hkey : (registryKeys reg).contains "reply" = true)
    (hiter : 1 ≤ maxIter) :
    execFunction reg call =
      ⟨true, stripQuotes argText, replyConfirmationText, []⟩ ∧
    runCalls reg (pre ++ call :: post) =
      ⟨true, stripQuotes argText, dispatchTrace reg pre⟩ ∧
    (sendMessage reg K maxIter llm history message).response = stripQuotes argText ∧
    (sendMessage reg K maxIter llm history message).trace = dispatchTrace reg pre := by
  have hcall2 : matchNameParenArgs (trimS call).data = some ("reply", argText) := hcall
  have hmem : "reply" ∈ registryKeys reg := by simpa using hkey
  have hexec : execFunction reg call =
      ⟨true, stripQuotes argText, replyConfirmationText, []⟩ := by
    simp [execFunction, hcall2, hmem, replyConfirmationText]
  have hrun : runCalls reg (pre ++ call :: post) =
      ⟨true, stripQuotes argText, dispatchTrace reg pre⟩ := by
    have := runCalls_fires_first reg pre post call hpre (by rw [hexec])
    rw [hexec] at this
    simpa using this
  refine ⟨hexec, hrun, ?_⟩
  obtain ⟨n, rfl⟩ : ∃ n, maxIter = n + 1 := ⟨maxIter - 1, by omega⟩
  have hstep : loopStep reg (llm (history ++ [⟨"user", message⟩]))
      ⟨history ++ [⟨"user", message⟩], 0, false, "", 0, []⟩ =
      ⟨history ++ [⟨"user", message⟩], 0, true, stripQuotes argText, 1,
        dispatchTrace reg pre⟩ := by
    have hne : (pre ++ call :: post).isEmpty = false := by cases pre <;> rfl
    simp only [loopStep, hx, hne, Bool.false_eq_true, if_false, hrun]
    simp
  constructor
  · simp [sendMessage, loopGo, hstep, loopGo_fixed]
  · simp [sendMessage, loopGo, hstep, loopGo_fixed]

/-- Witness for C2 at a concrete single-`reply` completion. -/
theorem reply_sets_final_answer_and_short_circuits_witness :
    (sendMessage demoRegistry 5 10 (fun _ => "reply('7')")
      [⟨"system", "s"⟩] "suma 2 y 5").response = "7" := by
  have h := reply_sets_final_answer_and_short_circuits demoRegistry 5 10
    (fun _ => "reply('7')") [⟨"system", "s"⟩] "suma 2 y 5" [] [] "reply('7')" "'7'"
    (by decide) (by intro c hc; cases hc) (by decide) (by decide) (by omega)
  have : stripQuotes "'7'" = "7" := by decide
  rw [this] at h
  exact h.2.2.1

/-- C3 counterexample: with `history_limit = 0`, Python's `[-0:]` slice keeps
the whole history, so after a single completed turn the persistent history
has 4 messages, exceeding the claimed bound `2*K + 1 = 1` (the leading
system message is duplicated).  The claim as stated is false at `K = 0`. -/
theorem history_limit_zero_exceeds_bound :
    (sendMessage demoRegistry 0 1 (fun _ => "reply('ok')")
      [⟨"system", "s"⟩] "hola").history =
      [⟨"system", "s"⟩, ⟨"system", "s"⟩, ⟨"user", "hola"⟩, ⟨"assistant", "ok"⟩] ∧
    ¬((sendMessage demoRegistry 0 1 (fun _ => "reply('ok')")
      [⟨"system", "s"⟩] "hola").history.length ≤ 2 * 0 + 1) := by
  constructor
  · decide
  · decide

theorem maintainHistoryLimit_head (k : Nat) (m : Msg) (t : List Msg) :
    (maintainHistoryLimit k (m :: t)).head? = some m := by
  unfold maintainHistoryLimit
  split
  · split <;> simp
  · simp

theorem maintainHistoryLimit_length_le (k : Nat) (hk : 1 ≤ k) (h : List Msg) :
    (maintainHistoryLimit k h).length ≤ 2 * k + 1 := by
  unfold maintainHistoryLimit
  split
  · have h2k : (2 * k == 0) = false := by
      have : 2 * k ≠ 0 := by omega
      simpa using this
    rw [h2k]
    simp only [Bool.false_eq_true, if_false, List.length_append, List.length_take,
      List.length_drop]
    omega
  · omega

/-- C3 (amended: `K ≥ 1`): a completed `send_message` turn appends exactly
one user message and one assistant (final-answer) message to the persistent
history — the working window's intermediate rounds are discarded — then
applies the retention trim; afterwards the head of the history is still the
original leading system message and the length is at most `2*K + 1`.
For `K = 0` the bound fails (see the counterexample): Python's `[-0:]`
slice keeps the whole history and duplicates the system message. -/
theorem history_turn_update (reg : Registry) (K maxIter : Nat)
    (llm : List Msg → String) (sys : Msg) (rest : List Msg) (message : String)
    (hK : 1 ≤ K) :
    (sendMessage reg K maxIter llm (sys :: rest) message).history =
      maintainHistoryLimit K ((sys :: rest) ++
        [⟨"user", message⟩,
         ⟨"assistant", (sendMessage reg K maxIter llm (sys :: rest) message).response⟩]) ∧
    (sendMessage reg K maxIter llm (sys :: rest) message).history.head? = some sys ∧
    (sendMessage reg K maxIter llm (sys :: rest) message).history.length ≤ 2 * K + 1 := by
  refine ⟨by simp [sendMessage], ?_, ?_⟩
  · show (maintainHistoryLimit K (((sys :: rest) ++ [⟨"user", message⟩]) ++
      [⟨"assistant", _⟩])).head? = some sys
    simpa using maintainHistoryLimit_head K sys _
  · exact maintainHistoryLimit_length_le K hK _

/-- Witness for C3's amended theorem at a concrete turn with `K = 1`. -/
theorem history_turn_update_witness :
    (sendMessage demoRegistry 1 1 (fun _ => "reply('ok')")
      [⟨"system", "s"⟩] "hola").history.head? = some ⟨"system", "s"⟩ ∧
    (sendMessage demoRegistry 1 1 (fun _ => "reply('ok')")
      [⟨"system", "s"⟩] "hola").history.length ≤ 2 * 1 + 1 := by
  have h := history_turn_update demoRegistry 1 1 (fun _ => "reply('ok')")
    ⟨"system", "s"⟩ [] "hola" (by omega)
  exact ⟨h.2.1, h.2.2⟩

/-- C4: the dispatcher never lets a failure escape (it is a total function):
malformed call syntax yields the descriptive format-error string; an unknown
tool name yields an error string naming the tool and the known tool names;
a failure raised inside a non-terminal tool yields an error string with the
tool name and the underlying message (`dividir(10, 0)` names the
zero-division); a successful call returns the textual representation of the
result (`dividir(10, 2)` yields `"5.0"`). -/
theorem dispatch_error_handling :
    (∀ (reg : Registry) (call : String),
      matchNameParenArgs (trimS call).toList = none →
      execFunction reg call = ⟨false, "",
        "Error: Formato de función inválido: " ++ trimS call ++
          ". Usa el formato: nombre_funcion(argumentos)", []⟩) ∧
    (∀ (reg : Registry) (call name args : String),
      matchNameParenArgs (trimS call).toList = some (name, args) →
      (registryKeys reg).contains name = false →
      execFunction reg call = ⟨false, "",
        "Error: Función '" ++ name ++ "' no encontrada. Herramientas disponibles: " ++
          pyReprStrList (registryKeys reg), []⟩) ∧
    execFunction demoRegistry "dividir(10, 0)" = ⟨false, "",
      "Error en argumentos de dividir: No se puede dividir entre cero.. Verifica la sintaxis.",
      ["dividir"]⟩ ∧
    execFunction demoRegistry "dividir(10, 2)" = ⟨false, "", "5.0", ["dividir"]⟩ := by
  refine ⟨?_, ?_, by decide, by decide⟩
  · intro reg call h
    have h2 : matchNameParenArgs (trimS call).data = none := h
    simp [execFunction, h2]
  · intro reg call name args h hk
    have h2 : matchNameParenArgs (trimS call).data = some (name, args) := h
    have hmem : name ∉ registryKeys reg := by
      intro hmem
      have : (registryKeys reg).contains name = true := by simpa using hmem
      rw [this] at hk
      cases hk
    simp [execFunction, h2, hmem]

/-- Witness for C4's universally quantified parts at concrete invocations. -/
theorem dispatch_error_handling_witness :
    execFunction demoRegistry "oops" = ⟨false, "",
      "Error: Formato de función inválido: oops. Usa el formato: nombre_funcion(argumentos)",
      []⟩ ∧
    execFunction demoRegistry "foo(1)" = ⟨false, "",
      "Error: Función 'foo' no encontrada. Herramientas disponibles: ['sumar', 'dividir', 'reply']",
      []⟩ := by
  constructor
  · exact (dispatch_error_handling.1 demoRegistry "oops" (by decide)).trans (by decide)
  · exact (dispatch_error_handling.2.1 demoRegistry "foo(1)" "foo" "1"
      (by decide) (by decide)).trans (by decide)

theorem loopStep_no_calls_low (reg : Registry) (resp : String) (st : LoopState)
    (h : extractFunctionCalls reg resp = []) (hc : st.consecutiveNoReply = 0) :
    ∃ m, loopStep reg resp st =
      { st with requests := st.requests + 1,
                msgs := st.msgs ++ [⟨"assistant", resp⟩, ⟨"user", m⟩],
                consecutiveNoReply := 1 } ∧
      (m = finalAnswerReplyDemand ∨ m = continueAnalysisDemand) := by
  have hge : ¬(st.consecutiveNoReply + 1 ≥ 2) := by omega
  by_cases hm : hasFinalAnswerMarker resp = true
  · exact ⟨finalAnswerReplyDemand, by simp [loopStep, h, hge, hm, hc], Or.inl rfl⟩
  · refine ⟨continueAnalysisDemand, ?_, Or.inr rfl⟩
    simp only [Bool.not_eq_true] at hm
    simp [loopStep, h, hge, hm, hc]

theorem loopStep_no_calls_escalates (reg : Registry) (resp : String) (st : LoopState)
    (h : extractFunctionCalls reg resp = []) (hc : st.consecutiveNoReply = 1) :
    loopStep reg resp st =
      { st with requests := st.requests + 1,
                msgs := st.msgs ++ [⟨"assistant", resp⟩, ⟨"user", escalatedReplyDemand⟩],
                consecutiveNoReply := 0 } := by
  have hge : st.consecutiveNoReply + 1 ≥ 2 := by omega
  simp [loopStep, h, hge]

/-- C5: starting from a zero counter, after exactly 2 consecutive rounds
whose completions contain no detected invocations, the loop appends the
escalated corrective instruction to the working window and resets the
counter to zero, continuing to loop (the first such round injects one of
the two softer messages instead and raises the counter to 1). -/
theorem escalation_after_two_no_call_rounds (reg : Registry) (r1 r2 : String)
    (st : LoopState) (h0 : st.replyCalled = false) (hc : st.consecutiveNoReply = 0)
    (h1 : extractFunctionCalls reg r1 = []) (h2 : extractFunctionCalls reg r2 = []) :
    (loopStep reg r1 st).consecutiveNoReply = 1 ∧
    (∃ m, (loopStep reg r1 st).msgs = st.msgs ++ [⟨"assistant", r1⟩, ⟨"user", m⟩] ∧
      m ≠ escalatedReplyDemand) ∧
    (loopStep reg r2 (loopStep reg r1 st)).msgs =
      (loopStep reg r1 st).msgs ++ [⟨"assistant", r2⟩, ⟨"user", escalatedReplyDemand⟩] ∧
    (loopStep reg r2 (loopStep reg r1 st)).consecutiveNoReply = 0 ∧
    (loopStep reg r2 (loopStep reg r1 st)).replyCalled = false := by
  obtain ⟨m, hst1, hm⟩ := loopStep_no_calls_low reg r1 st h1 hc
  have hesc := loopStep_no_calls_escalates reg r2 (loopStep reg r1 st) h2
    (by rw [hst1])
  refine ⟨by rw [hst1], ⟨m, by rw [hst1], ?_⟩, by rw [hesc], by rw [hesc], ?_⟩
  · rcases hm with rfl | rfl <;> decide
  · rw [hesc]
    show (loopStep reg r1 st).replyCalled = false
    rw [hst1]
    exact h0

/-- Witness for C5 at two concrete call-free completions. -/
theorem escalation_after_two_no_call_rounds_witness :
    (loopStep demoRegistry "hola" (loopStep demoRegistry "hola"
      ⟨[], 0, false, "", 0, []⟩)).msgs =
      (loopStep demoRegistry "hola" ⟨[], 0, false, "", 0, []⟩).msgs ++
        [⟨"assistant", "hola"⟩, ⟨"user", escalatedReplyDemand⟩] ∧
    (loopStep demoRegistry "hola" (loopStep demoRegistry "hola"
      ⟨[], 0, false, "", 0, []⟩)).consecutiveNoReply = 0 := by
  have h := escalation_after_two_no_call_rounds demoRegistry "hola" "hola"
    ⟨[], 0, false, "", 0, []⟩ rfl rfl (by decide) (by decide)
  exact ⟨h.2.2.1, h.2.2.2.1⟩

/-- C6 counterexample: a call-free completion containing the marker
`la respuesta es` makes the loop inject `finalAnswerReplyDemand`, which is a
*different* message from the escalated instruction used at the 2-round
counter threshold, and the counter is not reset (it becomes 1).  The claim
that the heuristic emits "the same escalated instruction" is false. -/
theorem marker_injects_distinct_message :
    (loopStep demoRegistry "la respuesta es 42" ⟨[], 0, false, "", 0, []⟩).msgs =
      [⟨"assistant", "la respuesta es 42"⟩, ⟨"user", finalAnswerReplyDemand⟩] ∧
    (loopStep demoRegistry "la respuesta es 42"
      ⟨[], 0, false, "", 0, []⟩).consecutiveNoReply = 1 ∧
    hasFinalAnswerMarker "la respuesta es 42" = true ∧
    extractFunctionCalls demoRegistry "la respuesta es 42" = [] ∧
    finalAnswerReplyDemand ≠ escalatedReplyDemand := by
  refine ⟨by decide, by decide, by decide, by decide, by decide⟩

/-- C6 (amended): when a completion has zero detected invocations, the
counter is below the threshold, and its lowercased text contains one of the
fixed final-answer marker phrases, the loop immediately injects the
final-answer corrective instruction (`finalAnswerReplyDemand`) — a message
distinct from the escalated 2-round instruction — and increments the
counter to 1 without resetting it. -/
theorem marker_prompts_immediately (reg : Registry) (resp : String) (st : LoopState)
    (hc : st.consecutiveNoReply = 0)
    (h : extractFunctionCalls reg resp = [])
    (hm : hasFinalAnswerMarker resp = true) :
    loopStep reg resp st =
      { st with requests := st.requests + 1,
                msgs := st.msgs ++ [⟨"assistant", resp⟩, ⟨"user", finalAnswerReplyDemand⟩],
                consecutiveNoReply := 1 } := by
  have hge : ¬(st.consecutiveNoReply + 1 ≥ 2) := by omega
  simp [loopStep, h, hge, hm, hc]

/-- Witness for C6's amended theorem at a concrete marker completion. -/
theorem marker_prompts_immediately_witness :
    loopStep demoRegistry "en resumen, todo bien" ⟨[], 0, false, "", 0, []⟩ =
      ⟨[⟨"assistant", "en resumen, todo bien"⟩, ⟨"user", finalAnswerReplyDemand⟩],
       1, false, "", 1, []⟩ := by
  exact (marker_prompts_immediately demoRegistry "en resumen, todo bien"
    ⟨[], 0, false, "", 0, []⟩ rfl (by decide) (by decide)).trans (by decide)

/-! ## Documentation-generation lemmas (C7) -/

theorem splitOnChar_ne_nil (sep : Char) (cs : List Char) : splitOnChar sep cs ≠ [] := by
  induction cs with
  | nil => simp [splitOnChar]
  | cons c cs ih =>
    simp only [splitOnChar]
    split
    · simp
    · match hsp : splitOnChar sep cs with
      | [] => exact absurd hsp ih
      | l :: ls => simp

theorem splitOnChar_nlFree (l : List Char) (h : '\n' ∉ l) :
    splitOnChar '\n' l = [l] := by
  induction l with
  | nil => rfl
  | cons c cs ih =>
    have hc : (c == '\n') = false := by
      have : c ≠ '\n' := fun hcc => h (hcc ▸ List.mem_cons_self c cs)
      simpa using fun hcc => this (by simpa using hcc)
    have ihh := ih (fun hm => h (List.mem_cons_of_mem c hm))
    simp only [splitOnChar, hc, Bool.false_eq_true, if_false, ihh]

theorem splitOnChar_append_nl (l rest : List Char) (h : '\n' ∉ l) :
    splitOnChar '\n' (l ++ '\n' :: rest) = l :: splitOnChar '\n' rest := by
  induction l with
  | nil => simp [splitOnChar]
  | cons c cs ih =>
    have hc : (c == '\n') = false := by
      have : c ≠ '\n' := fun hcc => h (hcc ▸ List.mem_cons_self c cs)
      simpa using fun hcc => this (by simpa using hcc)
    have ihh := ih (fun hm => h (List.mem_cons_of_mem c hm))
    simp only [List.cons_append, splitOnChar, hc, Bool.false_eq_true, if_false,
      List.append_eq, ihh]

theorem joinLines_cons (l : List Char) (L : List (List Char)) (h : L ≠ []) :
    joinLines (l :: L) = l ++ '\n' :: joinLines L := by
  match L with
  | [] => exact absurd rfl h
  | x :: xs => rfl

theorem pyWordsGo_no_space (fuel : Nat) (cs w : List Char)
    (hw : w ∈ pyWordsGo fuel cs) (c : Char) (hc : c ∈ w) : pyIsSpace c = false := by
  induction fuel generalizing cs with
  | zero =>
    have hz : pyWordsGo 0 cs = [] := by cases cs <;> rfl
    rw [hz] at hw
    cases hw
  | succ n ih =>
    match cs with
    | [] =>
      rw [show pyWordsGo (n + 1) [] = [] from rfl] at hw
      cases hw
    | x :: xs =>
      simp only [pyWordsGo] at hw
      split at hw
      · exact ih xs hw
      · rcases List.mem_cons.mp hw with rfl | hmem
        · have := List.mem_takeWhile_imp hc
          simpa using this
        · exact ih _ hmem

theorem normalizeDocstring_nlFree (d : Option String) :
    '\n' ∉ normalizeDocstring d := by
  match d with
  | none => decide
  | some s =>
    simp only [normalizeDocstring]
    split
    · decide
    · intro hmem
      generalize hws : pyWords s.toList = ws at hmem
      have hall : ∀ w ∈ ws, ∀ c ∈ w, pyIsSpace c = false := by
        intro w hw c hc
        exact pyWordsGo_no_space _ _ w (hws ▸ hw) c hc
      clear hws
      induction ws with
      | nil => cases hmem
      | cons w ws ihw =>
        match ws with
        | [] =>
          have := hall w (List.mem_cons_self w []) '\n' hmem
          simpa [pyIsSpace] using this
        | w' :: ws' =>
          simp only [joinWordsSpace] at hmem
          rcases List.mem_append.mp hmem with hmw | hmr
          · have := hall w (List.mem_cons_self w _) '\n' hmw
            simpa [pyIsSpace] using this
          · rcases List.mem_cons.mp hmr with hsp | hmJ
            · cases hsp
            · exact ihw hmJ (fun x hx => hall x (List.mem_cons_of_mem w hx))

theorem bulletOfLine_bullet (name : List Char) :
    bulletOfLine ('•' :: ' ' :: (name ++ [':'])) = some (String.mk name) := by
  show (if (name ++ [':']).getLast? == some ':' then
    some (String.mk (name ++ [':']).dropLast) else none) = some (String.mk name)
  rw [List.getLast?_concat, List.dropLast_concat]
  rfl

theorem splitOnChar_nl_cons (x : List Char) :
    splitOnChar '\n' ('\n' :: x) = [] :: splitOnChar '\n' x := by
  simp [splitOnChar]

theorem splitJoin_block (bullet desc usage : List Char) (L : List (List Char))
    (hL : L ≠ []) (hb : '\n' ∉ bullet) (hd : '\n' ∉ desc) (hu : '\n' ∉ usage) :
    splitOnChar '\n' (joinLines (('\n' :: bullet) :: desc :: usage :: L)) =
      [] :: bullet :: desc :: usage :: splitOnChar '\n' (joinLines L) := by
  rw [joinLines_cons _ _ (by simp), joinLines_cons _ _ (by simp), joinLines_cons _ _ hL,
      List.cons_append, splitOnChar_nl_cons,
      splitOnChar_append_nl _ _ hb, splitOnChar_append_nl _ _ hd,
      splitOnChar_append_nl _ _ hu]

theorem doc_bullets_aux (ts : List ToolDecl)
    (h : ∀ t ∈ ts, '\n' ∉ t.name.toList) :
    (splitOnChar '\n' (joinLines (ts.flatMap toolEntryLines ++
      ["\nREMEMBER: Only YOU can execute these tools by calling them directly by name.".toList]))).filterMap
        bulletOfLine = ts.map (fun t => t.name) := by
  induction ts with
  | nil => decide
  | cons t ts ih =>
    have hname := h t (List.mem_cons_self t ts)
    have htail : ∀ x ∈ ts, '\n' ∉ x.name.toList :=
      fun x hx => h x (List.mem_cons_of_mem t hx)
    have hbul : '\n' ∉ '•' :: ' ' :: (t.name.toList ++ [':']) := by
      intro hm
      rcases List.mem_cons.mp hm with h1 | hm
      · cases h1
      rcases List.mem_cons.mp hm with h1 | hm
      · cases h1
      rcases List.mem_append.mp hm with h1 | h1
      · exact hname h1
      · simp at h1
    have hdesc : '\n' ∉ "  Description: ".toList ++ normalizeDocstring t.doc := by
      intro hm
      rcases List.mem_append.mp hm with h1 | h1
      · revert h1; decide
      · exact normalizeDocstring_nlFree t.doc h1
    have husage : '\n' ∉ "  Usage: ".toList ++ t.name.toList ++ "(arguments)".toList := by
      intro hm
      rcases List.mem_append.mp hm with h1 | h1
      · rcases List.mem_append.mp h1 with h2 | h2
        · revert h2; decide
        · exact hname h2
      · revert h1; decide
    have hlist : (t :: ts).flatMap toolEntryLines ++
        ["\nREMEMBER: Only YOU can execute these tools by calling them directly by name.".toList] =
        ('\n' :: ('•' :: ' ' :: (t.name.toList ++ [':']))) ::
          ("  Description: ".toList ++ normalizeDocstring t.doc) ::
          ("  Usage: ".toList ++ t.name.toList ++ "(arguments)".toList) ::
          (ts.flatMap toolEntryLines ++
            ["\nREMEMBER: Only YOU can execute these tools by calling them directly by name.".toList]) := by
      simp [toolEntryLines]
    rw [hlist, splitJoin_block _ _ _ _ (by simp) hbul hdesc husage,
        List.filterMap_cons, List.filterMap_cons, List.filterMap_cons, List.filterMap_cons]
    have hb := bulletOfLine_bullet t.name.toList
    have hmkname : String.mk t.name.toList = t.name := rfl
    rw [hmkname] at hb
    have hd : bulletOfLine ("  Description: ".toList ++ normalizeDocstring t.doc) = none := rfl
    have hu : bulletOfLine ("  Usage: ".toList ++ t.name.toList ++ "(arguments)".toList) = none := rfl
    have hn : bulletOfLine ([] : List Char) = none := rfl
    simp only [hn, hb, hd, hu]
    rw [ih htail]
    rfl

/-- C7 counterexample: with *no* caller-supplied tools the documentation is
not empty — the always-injected terminal `reply` tool is part of
`self.tools`, so the `if not self.tools` empty branch is unreachable and
`reply` itself is documented.  The claimed "empty iff no non-terminal tools"
equivalence is false. -/
theorem documentation_nonempty_with_reply_only :
    agentDocumentation [] ≠ "" ∧ bulletNames (agentDocumentation []) = ["reply"] := by
  constructor
  · decide
  · decide

/-- C7 (amended): for every caller-supplied tool list, the generated
documentation lists each tool of `self.tools` — the caller tools in
registration order followed by the injected terminal `reply` tool — exactly
once, in that order, and the documentation text is never empty (the empty
branch is unreachable because `reply` is always present). -/
theorem documentation_lists_each_tool_once (callerTools : List ToolDecl)
    (h : ∀ t ∈ agentTools callerTools, '\n' ∉ t.name.toList) :
    bulletNames (agentDocumentation callerTools) =
      (agentTools callerTools).map (fun t => t.name) ∧
    agentDocumentation callerTools ≠ "" := by
  have hne : (agentTools callerTools).isEmpty = false := by
    simp [agentTools]
  have hdoc : agentDocumentation callerTools =
      String.mk (joinLines (documentationLines (agentTools callerTools))) := by
    simp [agentDocumentation, generateToolsDocumentation, hne]
  have hM : (agentTools callerTools).flatMap toolEntryLines ++
      ["\nREMEMBER: Only YOU can execute these tools by calling them directly by name.".toList] ≠
        [] := by simp
  have hlines : documentationLines (agentTools callerTools) =
      ('\n' :: "HERRAMIENTAS DISPONIBLES:".toList) :: List.replicate 40 '=' ::
        ((agentTools callerTools).flatMap toolEntryLines ++
          ["\nREMEMBER: Only YOU can execute these tools by calling them directly by name.".toList]) :=
    rfl
  constructor
  · rw [hdoc]
    show (splitOnChar '\n'
      (joinLines (documentationLines (agentTools callerTools)))).filterMap bulletOfLine = _
    rw [hlines, joinLines_cons _ _ (by simp), joinLines_cons _ _ hM,
        List.cons_append, splitOnChar_nl_cons,
        splitOnChar_append_nl _ _ (by decide), splitOnChar_append_nl _ _ (by decide),
        List.filterMap_cons, List.filterMap_cons, List.filterMap_cons]
    have h1 : bulletOfLine "HERRAMIENTAS DISPONIBLES:".toList = none := rfl
    have h2 : bulletOfLine (List.replicate 40 '=') = none := rfl
    have hn : bulletOfLine ([] : List Char) = none := rfl
    simp only [hn, h1, h2]
    exact doc_bullets_aux (agentTools callerTools) h
  · rw [hdoc]
    intro heq
    have hdata := congrArg String.data heq
    have : joinLines (documentationLines (agentTools callerTools)) = [] := hdata
    rw [show documentationLines (agentTools callerTools) =
      "\nHERRAMIENTAS DISPONIBLES:".toList :: List.replicate 40 '=' ::
        ((agentTools callerTools).flatMap toolEntryLines ++
          ["\nREMEMBER: Only YOU can execute these tools by calling them directly by name.".toList]) from rfl] at this
    rw [joinLines_cons _ _ (by simp)] at this
    simp at this

/-- Witness for C7's amended theorem at a concrete caller tool list. -/
theorem documentation_lists_each_tool_once_witness :
    bulletNames (agentDocumentation [⟨"sumar", some "Suma dos números."⟩]) =
      ["sumar", "reply"] ∧
    agentDocumentation [⟨"sumar", some "Suma dos números."⟩] ≠ "" := by
  have h := documentation_lists_each_tool_once [⟨"sumar", some "Suma dos números."⟩]
    (by decide)
  exact ⟨h.1.trans (by decide), h.2⟩

/-! ## Extraction lemmas (C8) -/

theorem mem_dedupFirstGo (l : List String) (x : String) (hx : x ∈ l) :
    ∀ seen : List String, x ∈ dedupFirstGo seen l ∨ seen.contains x = true := by
  induction l with
  | nil => cases hx
  | cons y ys ih =>
    intro seen
    simp only [dedupFirstGo]
    rcases List.mem_cons.mp hx with rfl | hmem
    · by_cases hseen : seen.contains x = true
      · exact Or.inr hseen
      · simp only [hseen, Bool.false_eq_true, if_false]
        exact Or.inl (List.mem_cons_self x _)
    · by_cases hseen : seen.contains y = true
      · simp only [hseen, if_true]
        exact ih hmem seen
      · simp only [hseen, Bool.false_eq_true, if_false]
        rcases ih hmem (y :: seen) with hin | hcont
        · exact Or.inl (List.mem_cons_of_mem y hin)
        · by_cases hxy : x = y
          · exact Or.inl (hxy ▸ List.mem_cons_self y _)
          · have h1 : x = y ∨ x ∈ seen := by simpa using hcont
            rcases h1 with h2 | h2
            · exact absurd h2 hxy
            · exact Or.inr (by simpa using h2)

theorem mem_dedupFirst (l : List String) (x : String) (hx : x ∈ l) :
    x ∈ dedupFirst l := by
  rcases mem_dedupFirstGo l x hx [] with h | h
  · exact h
  · cases h

/-- C8 counterexample: the bare line `foo(1)` matches the `identifier(...)`
line syntax but `foo` is not a registered tool name, and nothing is
extracted — the bare-line scan keeps only lines whose identifier is a
registered tool.  The claim's "regardless of whether the identifier is a
registered tool name" is false. -/
theorem unregistered_bare_line_not_extracted :
    lineLooksLikeCall (pyStrip "foo(1)".toList) = true ∧
    (registryKeys demoRegistry).contains "foo" = false ∧
    extractFunctionCalls demoRegistry "foo(1)" = [] := by
  refine ⟨by decide, by decide, by decide⟩

/-- C8 (amended): any full line of a completion that, after stripping
surrounding whitespace, matches `identifier(...)` syntax *with a registered
identifier* is included among the extracted invocations — regardless of
where the line occurs (inside or outside fenced code blocks).  Unregistered
identifiers on bare lines are only picked up inside ```python fenced blocks
(see the counterexample). -/
theorem registered_bare_line_extracted (reg : Registry) (text : String)
    (line : List Char) (hline : line ∈ splitOnChar '\n' text.toList)
    (hcall : lineLooksLikeCall (pyStrip line) = true)
    (hkey : (registryKeys reg).contains
      (String.mk ((pyStrip line).takeWhile (fun c => c != '('))) = true) :
    String.mk (pyStrip line) ∈ extractFunctionCalls reg text := by
  have hmem : String.mk ((pyStrip line).takeWhile (fun c => c != '(')) ∈
      registryKeys reg := by simpa using hkey
  have hbare : String.mk (pyStrip line) ∈ bareLineCalls (registryKeys reg) text.toList := by
    apply List.mem_filterMap.mpr
    refine ⟨pyStrip line, List.mem_map_of_mem pyStrip hline, ?_⟩
    simp [hcall, hmem]
  apply mem_dedupFirst
  exact List.mem_append_right _ hbare

/-- Witness for C8's amended theorem at a concrete registered bare line. -/
theorem registered_bare_line_extracted_witness :
    "dividir(8, 2)" ∈ extractFunctionCalls demoRegistry "texto\n  dividir(8, 2)  \nmás" := by
  have h := registered_bare_line_extracted demoRegistry "texto\n  dividir(8, 2)  \nmás"
    "  dividir(8, 2)  ".toList (by decide) (by decide) (by decide)
  have he : String.mk (pyStrip "  dividir(8, 2)  ".toList) = "dividir(8, 2)" := by decide
  rwa [he] at h

/-- C9 counterexample: a completion consisting of exactly the JSON object
`{"function": "sumar(2, 3)"}` with `sumar` registered is *not* parsed by the
legacy `BasicAgent` — its regex expects a `función: name(args)` text prefix,
not JSON — so no invocation is extracted or executed and the raw completion
is returned verbatim. -/
theorem json_object_completion_not_executed :
    parseFunctionCallBasic [("sumar", sumar)] "\x7b\"function\": \"sumar(2, 3)\"\x7d" =
      (none, []) ∧
    (basicChat [("sumar", sumar)] 4 "sp"
      (fun _ => "\x7b\"function\": \"sumar(2, 3)\"\x7d") [] "hola").response =
      "\x7b\"function\": \"sumar(2, 3)\"\x7d" ∧
    (basicChat [("sumar", sumar)] 4 "sp"
      (fun _ => "\x7b\"function\": \"sumar(2, 3)\"\x7d") [] "hola").trace = [] := by
  refine ⟨by decide, by decide, by decide⟩

/-- C9 (amended): the legacy-mode `BasicAgent` expects a completion matching
`función: name(args)` (prefix matched case-insensitively), not a JSON
object; for such a completion with `name` registered and evaluable
arguments it extracts and executes exactly that one invocation and returns
the textual result, recording it as the assistant turn. -/
theorem funcion_prefix_executes_single_invocation (tools : Registry)
    (nI : Nat) (sys : String) (llm : List Msg → String) (history : List Msg)
    (input name rawArgs : String) (f : ToolFn) (args : List PyVal) (v : PyVal)
    (hmatch : matchBasicCall (pyStrip (llm (⟨"system", sys⟩ ::
      lastSlice (2 * nI) (history ++ [⟨"user", input⟩]))).toList) = some (name, rawArgs))
    (hlook : lookupTool tools name = some f)
    (hargs : evalArgs rawArgs = .ok args)
    (hcall : f args = .ok v) :
    (basicChat tools nI sys llm history input).response = pyStr v ∧
    (basicChat tools nI sys llm history input).trace = [(name, args)] ∧
    (basicChat tools nI sys llm history input).history =
      (history ++ [⟨"user", input⟩]) ++ [⟨"assistant", pyStr v⟩] := by
  have hmatch2 : matchBasicCall (pyStrip (llm (⟨"system", sys⟩ ::
      lastSlice (2 * nI) (history ++ [⟨"user", input⟩]))).data) =
      some (name, rawArgs) := hmatch
  have hparse : parseFunctionCallBasic tools (llm (⟨"system", sys⟩ ::
      lastSlice (2 * nI) (history ++ [⟨"user", input⟩]))) =
      (some (pyStr v), [(name, args)]) := by
    simp [parseFunctionCallBasic, hmatch2, hlook, hargs, hcall]
  refine ⟨?_, ?_, ?_⟩ <;> simp [basicChat, hparse]

/-- Witness for C9's amended theorem at a concrete legacy completion. -/
theorem funcion_prefix_executes_single_invocation_witness :
    (basicChat [("sumar", sumar)] 4 "sp" (fun _ => "función: sumar(2, 3)")
      [] "hola").response = "5" ∧
    (basicChat [("sumar", sumar)] 4 "sp" (fun _ => "función: sumar(2, 3)")
      [] "hola").trace = [("sumar", [PyVal.int 2, PyVal.int 3])] := by
  have h := funcion_prefix_executes_single_invocation [("sumar", sumar)] 4 "sp"
    (fun _ => "función: sumar(2, 3)") [] "hola" "sumar" "2, 3" sumar
    [PyVal.int 2, PyVal.int 3] (PyVal.int 5)
    (by decide) rfl rfl rfl
  exact ⟨h.1, h.2.1⟩

/-- C10: in a round with at least one extracted invocation where the
terminal `reply` tool does not fire, every extracted invocation is
dispatched twice — once in the execution loop and once more while the
observation message is built — so the round's invocation trace is the
single-pass dispatch trace concatenated with itself, and every tool name's
invocation count is exactly twice its single-pass count. -/
theorem round_dispatches_each_invocation_twice (reg : Registry) (resp : String)
    (st : LoopState) (h0 : st.replyCalled = false)
    (hne : extractFunctionCalls reg resp ≠ [])
    (hnf : ∀ c ∈ extractFunctionCalls reg resp,
      (execFunction reg c).replyFired = false) :
    (loopStep reg resp st).trace =
      st.trace ++ (dispatchTrace reg (extractFunctionCalls reg resp) ++
        dispatchTrace reg (extractFunctionCalls reg resp)) ∧
    ∀ n : String,
      List.count n (dispatchTrace reg (extractFunctionCalls reg resp) ++
        dispatchTrace reg (extractFunctionCalls reg resp)) =
      2 * List.count n (dispatchTrace reg (extractFunctionCalls reg resp)) := by
  constructor
  · have hrun := runCalls_not_fired reg _ hnf
    have hE : (extractFunctionCalls reg resp).isEmpty = false := by
      match hx : extractFunctionCalls reg resp with
      | [] => exact absurd hx hne
      | c :: cs => rfl
    simp [loopStep, hE, hrun, List.append_assoc]
  · intro n
    rw [List.count_append]
    omega

/-- Witness for C10 at a concrete single-invocation round. -/
theorem round_dispatches_each_invocation_twice_witness :
    (loopStep demoRegistry "dividir(10, 2)" ⟨[], 0, false, "", 0, []⟩).trace =
      ["dividir", "dividir"] ∧
    List.count "dividir" ((loopStep demoRegistry "dividir(10, 2)"
      ⟨[], 0, false, "", 0, []⟩).trace) = 2 := by
  have h := round_dispatches_each_invocation_twice demoRegistry "dividir(10, 2)"
    ⟨[], 0, false, "", 0, []⟩ rfl (by decide) (by decide)
  have e : (⟨[], 0, false, "", 0, []⟩ : LoopState).trace ++
      (dispatchTrace demoRegistry (extractFunctionCalls demoRegistry "dividir(10, 2)") ++
        dispatchTrace demoRegistry (extractFunctionCalls demoRegistry "dividir(10, 2)")) =
      ["dividir", "dividir"] := by decide
  refine ⟨h.1.trans e, ?_⟩
  rw [h.1.trans e]
  decide

end AgentModel
